import Mathlib

/-!
Verification of the Discordia chat client (`src/App.tsx`).

The file embeds the component's local-state logic as pure Lean functions:
the data model, the realtime message-merge handler, the audio toggles, and
the command handlers (send message, create server, join server, update
server).  Remote calls are modelled by explicit outcome parameters
(success/failure, fetched data) and by an `Eff` trace listing the remote
calls, log lines and alerts a handler performs.
-/

namespace Discordia

inductive ChannelType where
  | text
  | voice
  deriving DecidableEq, Repr

structure Message where
  id : String
  channelId : String
  content : String
  senderId : String
  senderName : String
  senderAvatar : Option String
  timestamp : Nat
  isSystem : Bool
  deriving DecidableEq, Repr

structure Channel where
  id : String
  name : String
  type : ChannelType
  messages : Option (List Message)
  deriving DecidableEq, Repr

structure Role where
  id : String
  name : String
  deriving DecidableEq, Repr

structure ServerMember where
  userId : String
  username : String
  avatar : String
  roles : List String
  deriving DecidableEq, Repr

structure Server where
  id : String
  name : String
  password : Option String
  ownerId : String
  channels : List Channel
  roles : List Role
  members : List ServerMember
  deriving DecidableEq, Repr

structure User where
  id : String
  username : String
  avatar : Option String
  deriving DecidableEq, Repr

/-- `ch.messages || []` / `ch.messages?.…`: a channel whose `messages` field is
absent behaves as having the empty list. -/
def msgsOf (c : Channel) : List Message := c.messages.getD []

/-- Inner body of the `onMessage` handler (`App.tsx` lines 104-110): a channel
matching the incoming message's `channelId` gets the message appended unless a
message with the same id is already present. -/
def mergeChan (m : Message) (c : Channel) : Channel :=
  if c.id == m.channelId then
    if (msgsOf c).any (fun x => x.id == m.id) then c
    else { c with messages := some (msgsOf c ++ [m]) }
  else c

/-- Outer body of the `onMessage` handler (`App.tsx` lines 98-112): a server is
left unchanged unless one of its channels matches the message's `channelId`. -/
def mergeServer (m : Message) (s : Server) : Server :=
  if s.channels.any (fun c => c.id == m.channelId) then
    { s with channels := s.channels.map (mergeChan m) }
  else s

/-- The `setServers` update performed for one incoming realtime message
(`App.tsx` lines 97-113). -/
def mergeMessage (m : Message) (servers : List Server) : List Server :=
  servers.map (mergeServer m)

/-- Delivering a whole sequence of realtime message events, in order. -/
def applyEvents (events : List Message) (servers : List Server) : List Server :=
  events.foldl (fun ss m => mergeMessage m ss) servers

/-- The evolution of one channel under a sequence of events. -/
def chanApply (events : List Message) (c : Channel) : Channel :=
  events.foldl (fun ch m => mergeChan m ch) c

/-- Specification-side characterisation: the sublist of `events` that lands in
a channel with id `cid` whose list currently holds `acc` — each event kept at
its first arrival, skipped when its id is already present. -/
def firstArrivals (cid : String) (acc : List Message) : List Message → List Message
  | [] => []
  | m :: rest =>
    if cid == m.channelId then
      if acc.any (fun x => x.id == m.id) then firstArrivals cid acc rest
      else m :: firstArrivals cid (acc ++ [m]) rest
    else firstArrivals cid acc rest

/-- Observation of a server: its channels' ids paired with their message lists. -/
def serverView (s : Server) : List (String × List Message) :=
  s.channels.map (fun c => (c.id, msgsOf c))

/-- The remote calls, console logs and alerts a handler performs, in order. -/
inductive Eff where
  | fetchServers (userId : String)
  | createSrv (server : Server) (userId : String)
  | joinSrv (serverId : String) (userId : String)
  | sendMsg (message : Message)
  | logErr (text : String)
  | alert (text : String)
  deriving DecidableEq, Repr

/-- The component's local state (`useState` hooks of `App`, `App.tsx` lines
24-36; the purely visual modal/loading flags are not part of any handler's
behaviour and are omitted). -/
structure AppState where
  user : Option User
  servers : List Server
  activeServerId : Option String
  activeChannelId : Option String
  isVoiceConnected : Bool
  isMuted : Bool
  isDeafened : Bool
  noiseSuppression : Bool
  inputVolume : Nat
  outputVolume : Nat
  deriving DecidableEq, Repr

/-- The initial hook values (`App.tsx` lines 24-36), with the user possibly
already hydrated from local storage. -/
def initialState (user : Option User) : AppState :=
  { user := user, servers := [], activeServerId := none, activeChannelId := none,
    isVoiceConnected := false, isMuted := false, isDeafened := false,
    noiseSuppression := true, inputVolume := 100, outputVolume := 100 }

/-- `setActiveServerId(t.id); setActiveChannelId(t.channels[0].id)` — the
selection pair used by `loadUserServers`, `handleCreateServer` and
`handleJoinServer`.  When `t.channels` is empty, evaluating `t.channels[0].id`
throws a TypeError after the server id has already been set, so only the
server id changes in that case. -/
def selectTarget (t : Server) (st : AppState) : AppState :=
  match t.channels.head? with
  | some c => { st with activeServerId := some t.id, activeChannelId := some c.id }
  | none => { st with activeServerId := some t.id }

/-- `loadUserServers` (`App.tsx` lines 46-58).  `result` is the outcome of the
remote `getServersForUser` call (`none` means the call rejected, which is
caught and logged).  The TypeError thrown on an empty `channels[0]` is caught
by the same `try`, hence the extra log line in that branch. -/
def loadUserServers (userId : String) (result : Option (List Server)) (st : AppState) :
    AppState × List Eff :=
  match result with
  | none => (st, [Eff.fetchServers userId, Eff.logErr "Failed to load servers:"])
  | some l =>
    match l with
    | [] => ({ st with servers := l }, [Eff.fetchServers userId])
    | s0 :: _ =>
      if st.activeServerId = none then
        (selectTarget s0 { st with servers := l },
         Eff.fetchServers userId ::
           (match s0.channels.head? with
            | none => [Eff.logErr "Failed to load servers:"]
            | some _ => []))
      else ({ st with servers := l }, [Eff.fetchServers userId])

/-- `handleSendMessage` (`App.tsx` lines 138-157).  `genId` is the `uuidv4()`
value used when no explicit message id is supplied, `now` is `Date.now()`,
and `sendOk` is whether the remote `sendMessage` call resolved. -/
def handleSendMessage (channelId content : String) (messageId : Option String)
    (isSystem : Bool) (genId : String) (now : Nat) (sendOk : Bool) (st : AppState) :
    AppState × List Eff :=
  match st.user with
  | none => (st, [])
  | some u =>
    let m : Message :=
      { id := messageId.getD genId, channelId := channelId, content := content,
        senderId := u.id, senderName := u.username, senderAvatar := u.avatar,
        timestamp := now, isSystem := isSystem }
    if sendOk then (st, [Eff.sendMsg m])
    else (st, [Eff.sendMsg m, Eff.logErr "Failed to send message:"])

/-- Modelled from the spec: `getDefaultChannels` lives in `services/db`, which
is not among the sources under review.  The spec speaks of a "default channel
set" and its example server has channels [general(text), stage(voice)]; the
caller (`handleCreateServer`, `App.tsx` line 167) re-ids each default channel
with a fresh uuid and empty messages. -/
def defaultChannels (cid1 cid2 : String) : List Channel :=
  [ { id := cid1, name := "general", type := ChannelType.text, messages := some [] },
    { id := cid2, name := "stage", type := ChannelType.voice, messages := some [] } ]

/-- Modelled from the spec: `getDefaultRoles` lives in `services/db`, which is
not among the sources under review.  The spec speaks of "default roles"; the
admin role id `r-admin` is the one referenced by the creator's member record
(`App.tsx` line 173). -/
def defaultRoles : List Role := [{ id := "r-admin", name := "Admin" }]

/-- The server record built by `handleCreateServer` (`App.tsx` lines 162-175);
`newId`, `cid1`, `cid2` are the fresh `uuidv4()` values. -/
def builtServer (name : String) (password : Option String) (newId cid1 cid2 : String)
    (u : User) : Server :=
  { id := newId, name := name, password := password, ownerId := u.id,
    channels := defaultChannels cid1 cid2, roles := defaultRoles,
    members := [{ userId := u.id, username := u.username, avatar := u.avatar.getD "",
                  roles := ["r-admin"] }] }

/-- `handleCreateServer` (`App.tsx` lines 159-186).  `createOk` is whether the
remote `createServer` call resolved; `reload` is the outcome of the
`getServersForUser` call made by the nested `loadUserServers` (whose own
failure is caught internally and does not abort the handler). -/
def handleCreateServer (name : String) (password : Option String) (newId cid1 cid2 : String)
    (createOk : Bool) (reload : Option (List Server)) (st : AppState) : AppState × List Eff :=
  match st.user with
  | none => (st, [])
  | some u =>
    let newServer := builtServer name password newId cid1 cid2 u
    if createOk then
      (selectTarget newServer (loadUserServers u.id reload st).1,
       Eff.createSrv newServer u.id :: (loadUserServers u.id reload st).2)
    else
      (st, [Eff.createSrv newServer u.id, Eff.logErr "Failed to create server:",
            Eff.alert "Failed to create server. Please try again."])

/-- `handleUpdateServer` (`App.tsx` lines 188-191): purely local
replace-by-identifier, no remote call. -/
def handleUpdateServer (updatedServer : Server) (st : AppState) : AppState × List Eff :=
  ({ st with servers :=
      st.servers.map (fun s => if s.id == updatedServer.id then updatedServer else s) },
   [])

/-- The password guard of `handleJoinServer` (`App.tsx` line 198):
`target.password && target.password !== password`; an absent or empty (falsy)
stored password never rejects. -/
def passwordRejects (pw : Option String) (supplied : String) : Bool :=
  match pw with
  | none => false
  | some p => p != "" && p != supplied

/-- `handleJoinServer` (`App.tsx` lines 193-219).  `joinOk` is whether the
remote `joinServer` call resolved; `reload` is the outcome of the nested
`loadUserServers` fetch. -/
def handleJoinServer (name password : String) (joinOk : Bool)
    (reload : Option (List Server)) (st : AppState) : AppState × List Eff :=
  match st.user with
  | none => (st, [])
  | some u =>
    match st.servers.find? (fun s => s.name == name) with
    | none => (st, [Eff.alert "Server not found."])
    | some target =>
      if passwordRejects target.password password then
        (st, [Eff.alert "Incorrect password!"])
      else if target.members.any (fun mb => mb.userId == u.id) then
        (selectTarget target st, [])
      else if joinOk then
        (selectTarget target (loadUserServers u.id reload st).1,
         Eff.joinSrv target.id u.id :: (loadUserServers u.id reload st).2)
      else
        (st, [Eff.joinSrv target.id u.id, Eff.logErr "Failed to join server:",
              Eff.alert "Failed to join server. Please try again."])

/-- `toggleMute` (`App.tsx` lines 222-229): flips `isMuted` and, despite its
comment "If we are unmuting, ensure deafen is off", never touches
`isDeafened`. -/
def toggleMute (st : AppState) : AppState :=
  if st.isMuted then { st with isMuted := false } else { st with isMuted := true }

/-- `toggleDeafen` (`App.tsx` lines 231-241): undeafening also unmutes,
deafening also mutes. -/
def toggleDeafen (st : AppState) : AppState :=
  if st.isDeafened then { st with isDeafened := false, isMuted := false }
  else { st with isDeafened := true, isMuted := true }

/-- `servers.find(s => s.id === activeServerId)` (`App.tsx` line 257). -/
def activeServer (st : AppState) : Option Server :=
  match st.activeServerId with
  | none => none
  | some sid => st.servers.find? (fun s => s.id == sid)

/-- `onSelectServer` (`App.tsx` lines 265-270).  When the selected server has
no channel, `server.channels[0].id` throws after `setActiveServerId` and
before `setIsVoiceConnected`. -/
def onSelectServer (id : String) (st : AppState) : AppState :=
  match st.servers.find? (fun s => s.id == id) with
  | none => { st with activeServerId := some id, isVoiceConnected := false }
  | some s =>
    match s.channels.head? with
    | none => { st with activeServerId := some id }
    | some c =>
      { st with activeServerId := some id, activeChannelId := some c.id,
                isVoiceConnected := false }

def chanIsVoice (c : Channel) : Bool :=
  match c.type with
  | ChannelType.voice => true
  | ChannelType.text => false

def chanIsText (c : Channel) : Bool :=
  match c.type with
  | ChannelType.text => true
  | ChannelType.voice => false

/-- `onSelectChannel` (`App.tsx` lines 280-288), reachable only while a server
is active (the `ChannelList` is rendered only then). -/
def onSelectChannel (id : String) (st : AppState) : AppState :=
  match activeServer st with
  | none => st
  | some srv =>
    { st with activeChannelId := some id,
              isVoiceConnected :=
                match srv.channels.find? (fun c => c.id == id) with
                | some c => chanIsVoice c
                | none => false }

/-- `onLeave` of the `VoiceStage` (`App.tsx` lines 314-318). -/
def onLeaveVoice (st : AppState) : AppState :=
  match activeServer st with
  | none => { st with isVoiceConnected := false }
  | some srv =>
    match srv.channels.find? chanIsText with
    | none => { st with isVoiceConnected := false }
    | some c => { st with isVoiceConnected := false, activeChannelId := some c.id }

/-- The selection invariant claimed by the spec: the active server id, when
present, is the id of a loaded server; the active channel id, when present, is
the id of a channel of a loaded server; no channel is active without an active
server. -/
def SelInv (st : AppState) : Prop :=
  (∀ sid, st.activeServerId = some sid → ∃ s ∈ st.servers, s.id = sid) ∧
  (∀ cid, st.activeChannelId = some cid → ∃ s ∈ st.servers, ∃ c ∈ s.channels, c.id = cid) ∧
  (st.activeServerId = none → st.activeChannelId = none)

/-- States reachable by the operations named in the spec, with remote results
unconstrained.  Standalone server-list loads happen only at bootstrap/login,
i.e. with no active selection, and the UI delivers `onSelectServer` /
`onSelectChannel` only ids of rendered entries. -/
inductive Reached0 : AppState → Prop where
  | init (u : Option User) : Reached0 (initialState u)
  | load (st : AppState) (userId : String) (result : Option (List Server)) :
      Reached0 st → st.activeServerId = none →
      Reached0 (loadUserServers userId result st).1
  | create (st : AppState) (name : String) (password : Option String)
      (newId cid1 cid2 : String) (createOk : Bool) (reload : Option (List Server)) :
      Reached0 st →
      Reached0 (handleCreateServer name password newId cid1 cid2 createOk reload st).1
  | join (st : AppState) (name password : String) (joinOk : Bool)
      (reload : Option (List Server)) :
      Reached0 st →
      Reached0 (handleJoinServer name password joinOk reload st).1
  | selServer (st : AppState) (id : String) :
      Reached0 st → id ∈ st.servers.map Server.id →
      Reached0 (onSelectServer id st)
  | selChannel (st : AppState) (id : String) :
      Reached0 st →
      (∀ srv, activeServer st = some srv → id ∈ srv.channels.map Channel.id) →
      Reached0 (onSelectChannel id st)
  | leave (st : AppState) : Reached0 st → Reached0 (onLeaveVoice st)

/-- Like `Reached0`, but restricted to well-behaved remote reloads: after a
successful create the reload succeeds and contains the created server with its
channel ids, and a successful join's reload, when it succeeds, contains the
target server (which has at least one channel) with its channel ids. -/
inductive Reached : AppState → Prop where
  | init (u : Option User) : Reached (initialState u)
  | load (st : AppState) (userId : String) (result : Option (List Server)) :
      Reached st → st.activeServerId = none →
      Reached (loadUserServers userId result st).1
  | create (st : AppState) (name : String) (password : Option String)
      (newId cid1 cid2 : String) (createOk : Bool) (reload : Option (List Server)) :
      Reached st →
      (createOk = true → ∃ l, reload = some l ∧ ∃ s ∈ l, s.id = newId ∧
        s.channels.map Channel.id = (defaultChannels cid1 cid2).map Channel.id) →
      Reached (handleCreateServer name password newId cid1 cid2 createOk reload st).1
  | join (st : AppState) (name password : String) (joinOk : Bool)
      (reload : Option (List Server)) :
      Reached st →
      (∀ t, st.servers.find? (fun s => s.name == name) = some t →
        ∀ l, reload = some l →
          t.channels ≠ [] ∧ ∃ s ∈ l, s.id = t.id ∧
            s.channels.map Channel.id = t.channels.map Channel.id) →
      Reached (handleJoinServer name password joinOk reload st).1
  | selServer (st : AppState) (id : String) :
      Reached st → id ∈ st.servers.map Server.id →
      Reached (onSelectServer id st)
  | selChannel (st : AppState) (id : String) :
      Reached st →
      (∀ srv, activeServer st = some srv → id ∈ srv.channels.map Channel.id) →
      Reached (onSelectChannel id st)
  | leave (st : AppState) : Reached st → Reached (onLeaveVoice st)

/-! Concrete values used by the witnesses. -/

def demoUser : User := { id := "u1", username := "alice", avatar := none }

def demoMsg : Message :=
  { id := "m1", channelId := "c1", content := "hi", senderId := "u1",
    senderName := "alice", senderAvatar := none, timestamp := 1, isSystem := false }

def demoChannel : Channel :=
  { id := "c1", name := "general", type := ChannelType.text, messages := some [] }

def demoVoiceChannel : Channel :=
  { id := "c2", name := "stage", type := ChannelType.voice, messages := none }

def demoServer : Server :=
  { id := "s1", name := "club", password := some "pw", ownerId := "u1",
    channels := [demoChannel, demoVoiceChannel], roles := defaultRoles,
    members := [{ userId := "u1", username := "alice", avatar := "", roles := ["r-admin"] }] }

def demoState : AppState :=
  { initialState (some demoUser) with
      servers := [demoServer],
      activeServerId := some "s1",
      activeChannelId := some "c1" }

/-! Helper lemmas. -/

theorem list_map_self {α : Type} (f : α → α) (l : List α) (h : ∀ a ∈ l, f a = a) :
    l.map f = l := by
  induction l with
  | nil => rfl
  | cons x xs ih =>
    simp only [List.map_cons]
    rw [h x (List.mem_cons_self x xs), ih (fun a ha => h a (List.mem_cons_of_mem x ha))]

theorem list_map_congr {α β : Type} (f g : α → β) (l : List α) (h : ∀ a ∈ l, f a = g a) :
    l.map f = l.map g := by
  induction l with
  | nil => rfl
  | cons x xs ih =>
    simp only [List.map_cons]
    rw [h x (List.mem_cons_self x xs), ih (fun a ha => h a (List.mem_cons_of_mem x ha))]

theorem mergeChan_id (m : Message) (c : Channel) : (mergeChan m c).id = c.id := by
  unfold mergeChan
  split
  · split
    · rfl
    · rfl
  · rfl

theorem chanApply_cons (m : Message) (events : List Message) (c : Channel) :
    chanApply (m :: events) c = chanApply events (mergeChan m c) := rfl

theorem chanApply_id (events : List Message) (c : Channel) :
    (chanApply events c).id = c.id := by
  induction events generalizing c with
  | nil => rfl
  | cons m rest ih => rw [chanApply_cons, ih, mergeChan_id]

theorem mergeServer_eq (m : Message) (s : Server) :
    mergeServer m s = { s with channels := s.channels.map (mergeChan m) } := by
  unfold mergeServer
  split
  · rfl
  · rename_i h
    have h' : ∀ c ∈ s.channels, mergeChan m c = c := by
      intro c hc
      have hx : ¬ (c.id == m.channelId) = true := by
        intro hcid
        exact h (List.any_eq_true.mpr ⟨c, hc, hcid⟩)
      unfold mergeChan
      simp [hx]
    rw [list_map_self _ _ h']

theorem applyEvents_cons (m : Message) (events : List Message) (servers : List Server) :
    applyEvents (m :: events) servers = applyEvents events (mergeMessage m servers) := rfl

theorem applyEvents_eq (events : List Message) (servers : List Server) :
    applyEvents events servers
      = servers.map (fun s => { s with channels := s.channels.map (chanApply events) }) := by
  induction events generalizing servers with
  | nil =>
    refine (list_map_self _ _ (fun s hs => ?_)).symm
    rw [list_map_self (chanApply []) s.channels (fun c hc => rfl)]
  | cons m rest ih =>
    rw [applyEvents_cons, ih]
    unfold mergeMessage
    rw [List.map_map]
    refine list_map_congr _ _ _ (fun s hs => ?_)
    show { mergeServer m s with channels := (mergeServer m s).channels.map (chanApply rest) } = _
    rw [mergeServer_eq]
    simp only [List.map_map]
    rfl

theorem chanApply_msgs (events : List Message) (c : Channel) :
    msgsOf (chanApply events c) = msgsOf c ++ firstArrivals c.id (msgsOf c) events := by
  induction events generalizing c with
  | nil => simp [chanApply, firstArrivals]
  | cons m rest ih =>
    rw [chanApply_cons]
    by_cases h1 : (c.id == m.channelId) = true
    · by_cases h2 : ((msgsOf c).any fun x => x.id == m.id) = true
      · have hm : mergeChan m c = c := by
          unfold mergeChan; simp [h1, h2]
        rw [hm, ih]
        simp [firstArrivals, h1, h2]
      · have hm : mergeChan m c = { c with messages := some (msgsOf c ++ [m]) } := by
          unfold mergeChan; simp [h1, h2]
        have h2' : ¬ ∃ x ∈ c.messages.getD [], x.id = m.id := by
          simpa [List.any_eq_true, msgsOf] using h2
        rw [hm, ih]
        simp [msgsOf, firstArrivals, h1, h2']
    · have hm : mergeChan m c = c := by
        unfold mergeChan; simp [h1]
      rw [hm, ih]
      simp [firstArrivals, h1]

theorem firstArrivals_nodup (cid : String) (events : List Message) (acc : List Message)
    (h : (acc.map Message.id).Nodup) :
    ((acc ++ firstArrivals cid acc events).map Message.id).Nodup := by
  induction events generalizing acc with
  | nil => simpa [firstArrivals] using h
  | cons m rest ih =>
    by_cases h1 : (cid == m.channelId) = true
    · by_cases h2 : (acc.any fun x => x.id == m.id) = true
      · simpa [firstArrivals, h1, h2] using ih acc h
      · have hnotin : m.id ∉ acc.map Message.id := by
          intro hmem
          rcases List.mem_map.mp hmem with ⟨x, hx, hxid⟩
          exact h2 (List.any_eq_true.mpr ⟨x, hx, by simp [hxid]⟩)
        have hacc' : ((acc ++ [m]).map Message.id).Nodup := by
          simp only [List.map_append, List.map_cons, List.map_nil]
          rw [List.nodup_append]
          refine ⟨h, List.nodup_singleton _, ?_⟩
          intro a ha hb
          simp only [List.mem_singleton] at hb
          subst hb
          exact hnotin ha
        have hres := ih (acc ++ [m]) hacc'
        simpa [firstArrivals, h1, h2, List.append_assoc] using hres
    · simpa [firstArrivals, h1] using ih acc h

/-- C1: for every sequence of incoming realtime message events delivered to the
subscription handler, a message is merged into a channel's list only if some
loaded server holds a channel with the message's `channelId` and that channel
does not already hold the message's id; consequently each channel's list holds
each message id exactly once (given it started duplicate-free), and grows
append-only in first-arrival order, as characterised by `firstArrivals`. -/
theorem realtime_merge_dedup_first_arrival (events : List Message) (servers : List Server)
    (h : ∀ s ∈ servers, ∀ c ∈ s.channels, ((msgsOf c).map Message.id).Nodup) :
    (∀ s ∈ applyEvents events servers, ∀ c ∈ s.channels,
        ((msgsOf c).map Message.id).Nodup)
      ∧ (applyEvents events servers).map serverView
        = servers.map (fun s =>
            s.channels.map (fun c =>
              (c.id, msgsOf c ++ firstArrivals c.id (msgsOf c) events))) := by
  constructor
  · intro s hs c hc
    rw [applyEvents_eq] at hs
    rcases List.mem_map.mp hs with ⟨s0, hs0, rfl⟩
    rcases List.mem_map.mp hc with ⟨c0, hc0, rfl⟩
    rw [chanApply_msgs]
    exact firstArrivals_nodup _ _ _ (h s0 hs0 c0 hc0)
  · rw [applyEvents_eq, List.map_map]
    refine list_map_congr _ _ _ (fun s hs => ?_)
    show (s.channels.map (chanApply events)).map (fun c => (c.id, msgsOf c)) = _
    rw [List.map_map]
    refine list_map_congr _ _ _ (fun c hc => ?_)
    show ((chanApply events c).id, msgsOf (chanApply events c)) = _
    rw [chanApply_id, chanApply_msgs]

/-- Witness for C1 at a concrete input: one server with one text channel, two
events carrying the same message id. -/
theorem realtime_merge_dedup_first_arrival_witness :
    (∀ s ∈ [demoServer], ∀ c ∈ s.channels, ((msgsOf c).map Message.id).Nodup)
      ∧ ((∀ s ∈ applyEvents [demoMsg, demoMsg] [demoServer], ∀ c ∈ s.channels,
            ((msgsOf c).map Message.id).Nodup)
          ∧ (applyEvents [demoMsg, demoMsg] [demoServer]).map serverView
            = [demoServer].map (fun s =>
                s.channels.map (fun c =>
                  (c.id, msgsOf c ++ firstArrivals c.id (msgsOf c) [demoMsg, demoMsg])))) :=
  ⟨by decide, realtime_merge_dedup_first_arrival [demoMsg, demoMsg] [demoServer] (by decide)⟩

theorem head?_mem {α : Type} (l : List α) (a : α) (h : l.head? = some a) : a ∈ l := by
  cases l with
  | nil => cases h
  | cons x xs =>
    have hx : x = a := by simpa using h
    subst hx
    exact List.mem_cons_self _ _

theorem selectTarget_serverId (t : Server) (st : AppState) :
    (selectTarget t st).activeServerId = some t.id := by
  unfold selectTarget
  rcases hh : t.channels.head? with _ | c <;> simp [hh]

theorem selectTarget_servers (t : Server) (st : AppState) :
    (selectTarget t st).servers = st.servers := by
  unfold selectTarget
  rcases hh : t.channels.head? with _ | c <;> simp [hh]

theorem load_servers (uid : String) (r : Option (List Server)) (st : AppState) :
    (loadUserServers uid r st).1.servers = r.getD st.servers := by
  rcases r with _ | l
  · rfl
  · rcases l with _ | ⟨s0, rest⟩
    · rfl
    · by_cases hact : st.activeServerId = none
      · simp [loadUserServers, hact, selectTarget_servers]
      · simp [loadUserServers, hact]

theorem alert_not_mem_load (a : String) (uid : String) (r : Option (List Server))
    (st : AppState) : Eff.alert a ∉ (loadUserServers uid r st).2 := by
  rcases r with _ | l
  · show Eff.alert a ∉ [Eff.fetchServers uid, Eff.logErr "Failed to load servers:"]
    simp
  · rcases l with _ | ⟨s0, rest⟩
    · show Eff.alert a ∉ [Eff.fetchServers uid]
      simp
    · by_cases hact : st.activeServerId = none
      · rcases hh : s0.channels.head? with _ | c <;>
          simp [loadUserServers, hact, hh]
      · simp [loadUserServers, hact]

/-- C2 (refuting evaluation): starting unmuted and undeafened, `toggleDeafen`
followed by `toggleMute` leaves the state deafened but unmuted, violating
"deafened implies muted" — even though the comment inside `toggleMute` says
"If we are unmuting, ensure deafen is off", the code never clears
`isDeafened`. -/
theorem deafen_then_unmute_breaks_invariant :
    (toggleMute (toggleDeafen (initialState none))).isDeafened = true ∧
    (toggleMute (toggleDeafen (initialState none))).isMuted = false :=
  ⟨rfl, rfl⟩

/-- C4: joining a server whose stored password is non-empty with a different
supplied password changes no local state and performs no remote call — the
only effect is the "Incorrect password!" alert. -/
theorem join_wrong_password_no_change (name password : String) (joinOk : Bool)
    (reload : Option (List Server)) (st : AppState) (u : User) (t : Server) (p : String)
    (hu : st.user = some u)
    (ht : st.servers.find? (fun s => s.name == name) = some t)
    (hp : t.password = some p) (hp1 : p ≠ "") (hp2 : p ≠ password) :
    handleJoinServer name password joinOk reload st
      = (st, [Eff.alert "Incorrect password!"]) := by
  have hrej : passwordRejects t.password password = true := by
    simp [passwordRejects, hp, bne_iff_ne, hp1, hp2]
  simp [handleJoinServer, hu, ht, hrej]

/-- Witness for C4: `demoServer` has password "pw"; joining with "x" leaves
`demoState` unchanged. -/
theorem join_wrong_password_witness :
    demoState.user = some demoUser ∧
    handleJoinServer "club" "x" true none demoState
      = (demoState, [Eff.alert "Incorrect password!"]) :=
  ⟨by decide,
   join_wrong_password_no_change "club" "x" true none demoState demoUser demoServer "pw"
     (by decide) (by decide) (by decide) (by decide) (by decide)⟩

/-- C5: when the remote send rejects, `handleSendMessage` logs the failure and
leaves local state untouched; indeed for every outcome the handler never
touches local state (no optimistic insertion — only the realtime bridge
appends the sender's own message). -/
theorem send_message_failure_no_local_change (channelId content : String)
    (messageId : Option String) (isSystem : Bool) (genId : String) (now : Nat)
    (st : AppState) (u : User) (hu : st.user = some u) :
    (handleSendMessage channelId content messageId isSystem genId now false st).1 = st ∧
    Eff.logErr "Failed to send message:"
      ∈ (handleSendMessage channelId content messageId isSystem genId now false st).2 ∧
    (∀ sendOk, (handleSendMessage channelId content messageId isSystem genId now sendOk st).1
        = st) := by
  refine ⟨?_, ?_, ?_⟩
  · simp [handleSendMessage, hu]
  · simp [handleSendMessage, hu]
  · intro sendOk
    cases sendOk <;> simp [handleSendMessage, hu]

/-- Witness for C5 at a concrete input (content "hi", remote rejecting). -/
theorem send_message_failure_witness :
    demoState.user = some demoUser ∧
    ((handleSendMessage "c1" "hi" none false "g1" 5 false demoState).1 = demoState ∧
     Eff.logErr "Failed to send message:"
       ∈ (handleSendMessage "c1" "hi" none false "g1" 5 false demoState).2 ∧
     (∀ sendOk, (handleSendMessage "c1" "hi" none false "g1" 5 sendOk demoState).1
         = demoState)) :=
  ⟨by decide,
   send_message_failure_no_local_change "c1" "hi" none false "g1" 5 demoState demoUser
     (by decide)⟩

/-- C6: while a server is active, selecting a channel activates it and sets
`isVoiceConnected` exactly when the found channel's type is voice; leaving the
voice stage clears the flag and, when the active server has a text channel,
reselects the first one. -/
theorem select_channel_voice_flag_and_leave (st : AppState) (srv : Server) (id : String)
    (hsrv : activeServer st = some srv) :
    (onSelectChannel id st).activeChannelId = some id ∧
    ((onSelectChannel id st).isVoiceConnected = true ↔
      ∃ c, srv.channels.find? (fun c => c.id == id) = some c
        ∧ c.type = ChannelType.voice) ∧
    (onLeaveVoice st).isVoiceConnected = false ∧
    (∀ c, srv.channels.find? chanIsText = some c →
      (onLeaveVoice st).activeChannelId = some c.id) := by
  refine ⟨?_, ?_, ?_, ?_⟩
  · simp [onSelectChannel, hsrv]
  · rcases hf : srv.channels.find? (fun c => c.id == id) with _ | c
    · simp [onSelectChannel, hsrv, hf]
    · rcases hct : c.type with _ | _ <;>
        simp [onSelectChannel, hsrv, hf, chanIsVoice, hct]
  · unfold onLeaveVoice
    rw [hsrv]
    rcases hf : srv.channels.find? chanIsText with _ | c <;> simp [hf]
  · intro c hc
    simp [onLeaveVoice, hsrv, hc]

/-- Witness for C6: in `demoState` the active server is `demoServer`; selecting
the "stage" voice channel and leaving voice behave as claimed. -/
theorem select_channel_voice_flag_witness :
    activeServer demoState = some demoServer ∧
    ((onSelectChannel "c2" demoState).activeChannelId = some "c2" ∧
     ((onSelectChannel "c2" demoState).isVoiceConnected = true ↔
       ∃ c, demoServer.channels.find? (fun c => c.id == "c2") = some c
         ∧ c.type = ChannelType.voice) ∧
     (onLeaveVoice demoState).isVoiceConnected = false ∧
     (∀ c, demoServer.channels.find? chanIsText = some c →
       (onLeaveVoice demoState).activeChannelId = some c.id)) :=
  ⟨by decide, select_channel_voice_flag_and_leave demoState demoServer "c2" (by decide)⟩

/-- C7: single audio toggles — `toggleMute` flips the mute flag and never
touches `isDeafened` (in either direction); `toggleDeafen` flips the deafen
flag, forcing mute on when deafening and off when undeafening. -/
theorem audio_toggle_single_step (st : AppState) :
    (toggleMute st).isDeafened = st.isDeafened ∧
    (toggleMute st).isMuted = !st.isMuted ∧
    (toggleDeafen st).isDeafened = !st.isDeafened ∧
    (toggleDeafen st).isMuted = !st.isDeafened := by
  unfold toggleMute toggleDeafen
  rcases hm : st.isMuted <;> rcases hd : st.isDeafened <;> simp [hm, hd]

/-- C8: `handleUpdateServer` replaces every server whose id matches the update
by the updated record, leaves every other server and every other piece of
state unchanged, and performs no remote call. -/
theorem update_server_local_replace (updatedServer : Server) (st : AppState) :
    (handleUpdateServer updatedServer st).1
        = { st with servers :=
            st.servers.map (fun s => if s.id = updatedServer.id then updatedServer else s) } ∧
    (handleUpdateServer updatedServer st).2 = [] ∧
    (handleUpdateServer updatedServer st).1.user = st.user ∧
    (handleUpdateServer updatedServer st).1.activeServerId = st.activeServerId ∧
    (handleUpdateServer updatedServer st).1.activeChannelId = st.activeChannelId ∧
    (handleUpdateServer updatedServer st).1.isMuted = st.isMuted ∧
    (handleUpdateServer updatedServer st).1.isDeafened = st.isDeafened ∧
    (handleUpdateServer updatedServer st).1.isVoiceConnected = st.isVoiceConnected := by
  refine ⟨?_, rfl, rfl, rfl, rfl, rfl, rfl, rfl⟩
  unfold handleUpdateServer
  simp [beq_iff_eq]

/-- C9: when the target server's stored password is absent or empty, the
password guard never rejects, whatever password is supplied: no
"Incorrect password!" alert, a membership write is attempted whenever the user
is not yet a member, and the target gets selected when the user is already a
member or the remote join succeeds. -/
theorem join_falsy_password_never_rejects (name password : String) (joinOk : Bool)
    (reload : Option (List Server)) (st : AppState) (u : User) (t : Server)
    (hu : st.user = some u)
    (ht : st.servers.find? (fun s => s.name == name) = some t)
    (hpw : t.password = none ∨ t.password = some "") :
    Eff.alert "Incorrect password!" ∉ (handleJoinServer name password joinOk reload st).2 ∧
    ((∀ mb ∈ t.members, mb.userId ≠ u.id) →
      Eff.joinSrv t.id u.id ∈ (handleJoinServer name password joinOk reload st).2) ∧
    ((∃ mb ∈ t.members, mb.userId = u.id) ∨ joinOk = true →
      (handleJoinServer name password joinOk reload st).1.activeServerId = some t.id) := by
  have hrej : passwordRejects t.password password = false := by
    rcases hpw with h | h <;> simp [passwordRejects, h]
  by_cases hmem : (t.members.any fun mb => mb.userId == u.id) = true
  · have hstate : handleJoinServer name password joinOk reload st = (selectTarget t st, []) := by
      simp [handleJoinServer, hu, ht, hrej, hmem]
    refine ⟨?_, ?_, ?_⟩
    · rw [hstate]; simp
    · intro hnone
      rcases List.any_eq_true.mp hmem with ⟨mb, hmb, hmbid⟩
      exact absurd (show mb.userId = u.id by simpa using hmbid) (hnone mb hmb)
    · intro _
      rw [hstate]
      exact selectTarget_serverId t st
  · cases joinOk with
    | false =>
      have hstate : handleJoinServer name password false reload st
          = (st, [Eff.joinSrv t.id u.id, Eff.logErr "Failed to join server:",
                  Eff.alert "Failed to join server. Please try again."]) := by
        simp [handleJoinServer, hu, ht, hrej, hmem]
      have hne : ("Incorrect password!" : String) ≠ "Failed to join server. Please try again." :=
        by decide
      refine ⟨?_, ?_, ?_⟩
      · rw [hstate]; simp [hne]
      · intro _; rw [hstate]; simp
      · intro hdisj
        rcases hdisj with hmem' | hok
        · rcases hmem' with ⟨mb, hmb, hid⟩
          exact absurd (List.any_eq_true.mpr ⟨mb, hmb, by simpa using hid⟩) hmem
        · exact Bool.noConfusion hok
    | true =>
      have hstate : handleJoinServer name password true reload st
          = (selectTarget t (loadUserServers u.id reload st).1,
             Eff.joinSrv t.id u.id :: (loadUserServers u.id reload st).2) := by
        simp [handleJoinServer, hu, ht, hrej, hmem]
      refine ⟨?_, ?_, ?_⟩
      · rw [hstate]
        intro hmemx
        rcases List.mem_cons.mp hmemx with h | h
        · exact Eff.noConfusion h
        · exact alert_not_mem_load _ _ _ _ h
      · intro _; rw [hstate]; simp
      · intro _
        rw [hstate]
        exact selectTarget_serverId _ _

/-- Additional server for the C9 witness: no password, no members. -/
def openServer : Server :=
  { id := "s3", name := "open", password := none, ownerId := "u9",
    channels := [demoChannel], roles := [], members := [] }

def demoState2 : AppState := { demoState with servers := [demoServer, openServer] }

/-- Witness for C9: joining the password-less `openServer` with an arbitrary
password attempts the membership write and selects the target. -/
theorem join_falsy_password_witness :
    (demoState2.user = some demoUser ∧
     demoState2.servers.find? (fun s => s.name == "open") = some openServer ∧
     (openServer.password = none ∨ openServer.password = some "")) ∧
    (Eff.alert "Incorrect password!" ∉ (handleJoinServer "open" "whatever" true none demoState2).2 ∧
     ((∀ mb ∈ openServer.members, mb.userId ≠ demoUser.id) →
       Eff.joinSrv openServer.id demoUser.id
         ∈ (handleJoinServer "open" "whatever" true none demoState2).2) ∧
     ((∃ mb ∈ openServer.members, mb.userId = demoUser.id) ∨ true = true →
       (handleJoinServer "open" "whatever" true none demoState2).1.activeServerId
         = some openServer.id)) :=
  ⟨⟨by decide, by decide, by decide⟩,
   join_falsy_password_never_rejects "open" "whatever" true none demoState2 demoUser openServer
     (by decide) (by decide) (by decide)⟩

/-- C10: with no user logged in, the send-message, create-server and
join-server handlers return immediately: no remote call, no log, no alert, and
the state is returned unchanged. -/
theorem handlers_noop_without_user (channelId content : String) (messageId : Option String)
    (isSystem : Bool) (genId : String) (now : Nat) (sendOk : Bool)
    (cname : String) (cpw : Option String) (newId cid1 cid2 : String) (createOk : Bool)
    (reloadC : Option (List Server)) (jname jpw : String) (joinOk : Bool)
    (reloadJ : Option (List Server)) (st : AppState) (hu : st.user = none) :
    handleSendMessage channelId content messageId isSystem genId now sendOk st = (st, []) ∧
    handleCreateServer cname cpw newId cid1 cid2 createOk reloadC st = (st, []) ∧
    handleJoinServer jname jpw joinOk reloadJ st = (st, []) := by
  refine ⟨?_, ?_, ?_⟩ <;>
    simp [handleSendMessage, handleCreateServer, handleJoinServer, hu]

/-- Witness for C10 at the logged-out initial state. -/
theorem handlers_noop_without_user_witness :
    (initialState none).user = none ∧
    (handleSendMessage "c" "x" none false "g" 0 true (initialState none)
        = (initialState none, []) ∧
     handleCreateServer "n" none "i" "a" "b" true none (initialState none)
        = (initialState none, []) ∧
     handleJoinServer "n" "p" true none (initialState none) = (initialState none, [])) :=
  ⟨rfl,
   handlers_noop_without_user "c" "x" none false "g" 0 true "n" none "i" "a" "b" true none
     "n" "p" true none (initialState none) rfl⟩

theorem defaultChannels_head (cid1 cid2 : String) :
    (defaultChannels cid1 cid2).head?.map Channel.id = some cid1 := rfl

theorem selectTarget_channelId_some (t : Server) (st : AppState) (c : Channel)
    (hh : t.channels.head? = some c) :
    (selectTarget t st).activeChannelId = some c.id := by
  simp [selectTarget, hh]

theorem selectTarget_channelId_none (t : Server) (st : AppState)
    (hh : t.channels.head? = none) :
    (selectTarget t st).activeChannelId = st.activeChannelId := by
  simp [selectTarget, hh]

theorem activeServer_mem (st : AppState) (srv : Server) (h : activeServer st = some srv) :
    srv ∈ st.servers := by
  unfold activeServer at h
  rcases hact : st.activeServerId with _ | sid
  · rw [hact] at h; cases h
  · rw [hact] at h
    exact List.mem_of_find?_eq_some h

theorem activeServer_none (st : AppState) (h : st.activeServerId = none) :
    activeServer st = none := by
  unfold activeServer
  rw [h]

theorem selectTarget_selInv (t : Server) (st' : AppState)
    (h1 : ∃ s ∈ st'.servers, s.id = t.id)
    (h2 : ∀ c, t.channels.head? = some c →
      ∃ s ∈ st'.servers, ∃ c' ∈ s.channels, c'.id = c.id)
    (h3 : t.channels.head? = none →
      ∀ cid, st'.activeChannelId = some cid →
        ∃ s ∈ st'.servers, ∃ c ∈ s.channels, c.id = cid) :
    SelInv (selectTarget t st') := by
  refine ⟨?_, ?_, ?_⟩
  · intro sid hsid
    rw [selectTarget_serverId] at hsid
    have he : t.id = sid := by simpa using hsid
    subst he
    rw [selectTarget_servers]
    exact h1
  · intro cid hcid
    rw [selectTarget_servers]
    rcases hh : t.channels.head? with _ | c
    · rw [selectTarget_channelId_none t st' hh] at hcid
      exact h3 hh cid hcid
    · rw [selectTarget_channelId_some t st' c hh] at hcid
      have he : c.id = cid := by simpa using hcid
      subst he
      exact h2 c hh
  · intro hnone
    rw [selectTarget_serverId] at hnone
    exact Option.noConfusion hnone

def cexState : AppState :=
  (handleCreateServer "ghost" none "s2" "d1" "d2" true none (initialState (some demoUser))).1

/-- C3 (refuting evaluation): the state reached from a logged-in initial state
by one create-server operation whose remote create succeeds but whose
server-list reload fails is reachable, yet its active server id "s2" names no
server of the (empty) loaded list — the claimed selection invariant does not
hold in every reachable state. -/
theorem selection_invariant_cex : Reached0 cexState ∧ ¬ SelInv cexState := by
  constructor
  · exact Reached0.create (initialState (some demoUser)) "ghost" none "s2" "d1" "d2" true none
      (Reached0.init (some demoUser))
  · intro hinv
    obtain ⟨h1, _, _⟩ := hinv
    obtain ⟨s, hs1, _⟩ := h1 "s2" (by decide)
    have hempty : cexState.servers = [] := by decide
    rw [hempty] at hs1
    exact absurd hs1 (List.not_mem_nil s)

/-- C3 (amended): in every state reachable by bootstrap load, create server,
join server, select server, select channel and leave voice — provided a
successful create's reload succeeds and contains the created server with its
channel ids, a successful join's reload, when it succeeds, contains the target
server (which has a channel) with its channel ids, standalone loads happen
only with no active selection, and the select operations receive ids of
rendered entries — the active server id, when present, is the id of a loaded
server, the active channel id, when present, is the id of a channel of a
loaded server, and no channel is active without an active server. -/
theorem reached_selection_invariant (st : AppState) (h : Reached st) : SelInv st := by
  induction h with
  | init u =>
    refine ⟨?_, ?_, ?_⟩
    · intro sid hsid
      exact absurd hsid (by simp [initialState])
    · intro cid hcid
      exact absurd hcid (by simp [initialState])
    · intro _
      rfl
  | load st userId result hre hnone ih =>
    obtain ⟨ih1, ih2, ih3⟩ := ih
    have hcnone : st.activeChannelId = none := ih3 hnone
    rcases result with _ | l
    · exact ⟨ih1, ih2, ih3⟩
    · rcases l with _ | ⟨s0, rest⟩
      · refine ⟨?_, ?_, ?_⟩
        · intro sid hsid
          exact absurd hsid (by simp [loadUserServers, hnone])
        · intro cid hcid
          exact absurd hcid (by simp [loadUserServers, hcnone])
        · intro _
          show st.activeChannelId = none
          exact hcnone
      · have hstate : (loadUserServers userId (some (s0 :: rest)) st).1
            = selectTarget s0 { st with servers := s0 :: rest } := by
          simp [loadUserServers, hnone]
        rw [hstate]
        apply selectTarget_selInv
        · exact ⟨s0, by simp, rfl⟩
        · intro c hh
          exact ⟨s0, by simp, c, head?_mem _ _ hh, rfl⟩
        · intro _ cid hcid
          have h' : st.activeChannelId = some cid := by simpa using hcid
          rw [hcnone] at h'
          exact Option.noConfusion h'
  | create st name password newId cid1 cid2 createOk reload hre hc ih =>
    obtain ⟨ih1, ih2, ih3⟩ := ih
    rcases hu : st.user with _ | u
    · have hstate : (handleCreateServer name password newId cid1 cid2 createOk reload st).1
          = st := by
        simp [handleCreateServer, hu]
      rw [hstate]
      exact ⟨ih1, ih2, ih3⟩
    · cases createOk with
      | false =>
        have hstate : (handleCreateServer name password newId cid1 cid2 false reload st).1
            = st := by
          simp [handleCreateServer, hu]
        rw [hstate]
        exact ⟨ih1, ih2, ih3⟩
      | true =>
        obtain ⟨l, rfl, s, hsl, hsid, hch⟩ := hc rfl
        have hstate : (handleCreateServer name password newId cid1 cid2 true (some l) st).1
            = selectTarget (builtServer name password newId cid1 cid2 u)
                (loadUserServers u.id (some l) st).1 := by
          simp [handleCreateServer, hu]
        rw [hstate]
        have hservers : (loadUserServers u.id (some l) st).1.servers = l := by
          rw [load_servers]
          rfl
        apply selectTarget_selInv
        · refine ⟨s, ?_, hsid⟩
          rw [hservers]
          exact hsl
        · intro c hh
          have hc1 : c.id = cid1 := by
            have h1' : some cid1 = some c.id := by
              rw [← defaultChannels_head cid1 cid2,
                  (show (defaultChannels cid1 cid2).head? = some c from hh)]
              rfl
            exact (Option.some.inj h1').symm
          have hmemid : c.id ∈ s.channels.map Channel.id := by
            rw [hch, hc1]
            simp [defaultChannels]
          obtain ⟨c', hc'mem, hc'id⟩ := List.mem_map.mp hmemid
          refine ⟨s, ?_, c', hc'mem, hc'id⟩
          rw [hservers]
          exact hsl
        · intro hh
          exact absurd hh (by simp [builtServer, defaultChannels])
  | join st name password joinOk reload hre hc ih =>
    obtain ⟨ih1, ih2, ih3⟩ := ih
    rcases hu : st.user with _ | u
    · have hstate : (handleJoinServer name password joinOk reload st).1 = st := by
        simp [handleJoinServer, hu]
      rw [hstate]
      exact ⟨ih1, ih2, ih3⟩
    · rcases ht : st.servers.find? (fun s => s.name == name) with _ | t
      · have hstate : (handleJoinServer name password joinOk reload st).1 = st := by
          simp [handleJoinServer, hu, ht]
        rw [hstate]
        exact ⟨ih1, ih2, ih3⟩
      · have htmem : t ∈ st.servers := List.mem_of_find?_eq_some ht
        by_cases hrej : passwordRejects t.password password = true
        · have hstate : (handleJoinServer name password joinOk reload st).1 = st := by
            simp [handleJoinServer, hu, ht, hrej]
          rw [hstate]
          exact ⟨ih1, ih2, ih3⟩
        · by_cases hmem : (t.members.any fun mb => mb.userId == u.id) = true
          · have hstate : (handleJoinServer name password joinOk reload st).1
                = selectTarget t st := by
              simp [handleJoinServer, hu, ht, hrej, hmem]
            rw [hstate]
            apply selectTarget_selInv
            · exact ⟨t, htmem, rfl⟩
            · intro c hh
              exact ⟨t, htmem, c, head?_mem _ _ hh, rfl⟩
            · intro _ cid hcid
              exact ih2 cid hcid
          · cases joinOk with
            | false =>
              have hstate : (handleJoinServer name password false reload st).1 = st := by
                simp [handleJoinServer, hu, ht, hrej, hmem]
              rw [hstate]
              exact ⟨ih1, ih2, ih3⟩
            | true =>
              have hstate : (handleJoinServer name password true reload st).1
                  = selectTarget t (loadUserServers u.id reload st).1 := by
                simp [handleJoinServer, hu, ht, hrej, hmem]
              rw [hstate]
              rcases reload with _ | l
              · have hl : (loadUserServers u.id none st).1 = st := rfl
                rw [hl]
                apply selectTarget_selInv
                · exact ⟨t, htmem, rfl⟩
                · intro c hh
                  exact ⟨t, htmem, c, head?_mem _ _ hh, rfl⟩
                · intro _ cid hcid
                  exact ih2 cid hcid
              · obtain ⟨htne, s, hsl, hsid, hch⟩ := hc t ht l rfl
                have hservers : (loadUserServers u.id (some l) st).1.servers = l := by
                  rw [load_servers]
                  rfl
                apply selectTarget_selInv
                · refine ⟨s, ?_, hsid⟩
                  rw [hservers]
                  exact hsl
                · intro c hh
                  have hmemid : c.id ∈ s.channels.map Channel.id := by
                    rw [hch]
                    exact List.mem_map.mpr ⟨c, head?_mem _ _ hh, rfl⟩
                  obtain ⟨c', hc'mem, hc'id⟩ := List.mem_map.mp hmemid
                  refine ⟨s, ?_, c', hc'mem, hc'id⟩
                  rw [hservers]
                  exact hsl
                · intro hh
                  exfalso
                  apply htne
                  cases hcc : t.channels with
                  | nil => rfl
                  | cons x xs =>
                    rw [hcc] at hh
                    simp at hh
  | selServer st id hre hid ih =>
    obtain ⟨ih1, ih2, ih3⟩ := ih
    obtain ⟨s', hs'mem, hs'id⟩ := List.mem_map.mp hid
    rcases hf : st.servers.find? (fun s => s.id == id) with _ | s2
    · have hstate : onSelectServer id st
          = { st with activeServerId := some id, isVoiceConnected := false } := by
        simp [onSelectServer, hf]
      rw [hstate]
      refine ⟨?_, ?_, ?_⟩
      · intro sid hsid
        have he : id = sid := by simpa using hsid
        subst he
        exact ⟨s', hs'mem, hs'id⟩
      · intro cid hcid
        exact ih2 cid (by simpa using hcid)
      · intro hnone
        exact absurd hnone (by simp)
    · have hs2mem := List.mem_of_find?_eq_some hf
      have hs2id : s2.id = id := by simpa using List.find?_some hf
      rcases hh : s2.channels.head? with _ | c
      · have hstate : onSelectServer id st = { st with activeServerId := some id } := by
          simp [onSelectServer, hf, hh]
        rw [hstate]
        refine ⟨?_, ?_, ?_⟩
        · intro sid hsid
          have he : id = sid := by simpa using hsid
          subst he
          exact ⟨s', hs'mem, hs'id⟩
        · intro cid hcid
          exact ih2 cid (by simpa using hcid)
        · intro hnone
          exact absurd hnone (by simp)
      · have hstate : onSelectServer id st
            = { st with activeServerId := some id, activeChannelId := some c.id,
                        isVoiceConnected := false } := by
          simp [onSelectServer, hf, hh]
        rw [hstate]
        refine ⟨?_, ?_, ?_⟩
        · intro sid hsid
          have he : id = sid := by simpa using hsid
          subst he
          exact ⟨s', hs'mem, hs'id⟩
        · intro cid hcid
          have he : c.id = cid := by simpa using hcid
          subst he
          exact ⟨s2, hs2mem, c, head?_mem _ _ hh, rfl⟩
        · intro hnone
          exact absurd hnone (by simp)
  | selChannel st id hre hid ih =>
    obtain ⟨ih1, ih2, ih3⟩ := ih
    rcases hsrv : activeServer st with _ | srv
    · have hstate : onSelectChannel id st = st := by
        simp [onSelectChannel, hsrv]
      rw [hstate]
      exact ⟨ih1, ih2, ih3⟩
    · have hsrvmem : srv ∈ st.servers := activeServer_mem st srv hsrv
      obtain ⟨c, hcmem, hcid⟩ := List.mem_map.mp (hid srv hsrv)
      have hstate : onSelectChannel id st
          = { st with activeChannelId := some id,
                      isVoiceConnected :=
                        match srv.channels.find? (fun ch => ch.id == id) with
                        | some ch => chanIsVoice ch
                        | none => false } := by
        simp [onSelectChannel, hsrv]
      rw [hstate]
      refine ⟨?_, ?_, ?_⟩
      · intro sid hsid
        exact ih1 sid (by simpa using hsid)
      · intro cid2 hcid2
        have he : id = cid2 := by simpa using hcid2
        subst he
        exact ⟨srv, hsrvmem, c, hcmem, hcid⟩
      · intro hnone
        have hnone' : st.activeServerId = none := by simpa using hnone
        rw [activeServer_none st hnone'] at hsrv
        exact Option.noConfusion hsrv
  | leave st hre ih =>
    obtain ⟨ih1, ih2, ih3⟩ := ih
    rcases hsrv : activeServer st with _ | srv
    · have hstate : onLeaveVoice st = { st with isVoiceConnected := false } := by
        simp [onLeaveVoice, hsrv]
      rw [hstate]
      refine ⟨?_, ?_, ?_⟩
      · intro sid hsid
        exact ih1 sid (by simpa using hsid)
      · intro cid hcid
        exact ih2 cid (by simpa using hcid)
      · intro hnone
        simpa using ih3 (by simpa using hnone)
    · have hsrvmem := activeServer_mem st srv hsrv
      rcases hf : srv.channels.find? chanIsText with _ | c
      · have hstate : onLeaveVoice st = { st with isVoiceConnected := false } := by
          simp [onLeaveVoice, hsrv, hf]
        rw [hstate]
        refine ⟨?_, ?_, ?_⟩
        · intro sid hsid
          exact ih1 sid (by simpa using hsid)
        · intro cid hcid
          exact ih2 cid (by simpa using hcid)
        · intro hnone
          simpa using ih3 (by simpa using hnone)
      · have hstate : onLeaveVoice st
            = { st with isVoiceConnected := false, activeChannelId := some c.id } := by
          simp [onLeaveVoice, hsrv, hf]
        rw [hstate]
        refine ⟨?_, ?_, ?_⟩
        · intro sid hsid
          exact ih1 sid (by simpa using hsid)
        · intro cid hcid
          have he : c.id = cid := by simpa using hcid
          subst he
          exact ⟨srv, hsrvmem, c, List.mem_of_find?_eq_some hf, rfl⟩
        · intro hnone
          have hnone' : st.activeServerId = none := by simpa using hnone
          rw [activeServer_none st hnone'] at hsrv
          exact Option.noConfusion hsrv

/-- Witness for C3 (amended): a bootstrap load of one server from the
logged-in initial state is reachable and satisfies the invariant. -/
theorem reached_selection_invariant_witness :
    Reached (loadUserServers "u1" (some [demoServer]) (initialState (some demoUser))).1 ∧
    SelInv (loadUserServers "u1" (some [demoServer]) (initialState (some demoUser))).1 :=
  ⟨Reached.load (initialState (some demoUser)) "u1" (some [demoServer])
      (Reached.init (some demoUser)) rfl,
   reached_selection_invariant _
     (Reached.load (initialState (some demoUser)) "u1" (some [demoServer])
       (Reached.init (some demoUser)) rfl)⟩

end Discordia
